import Mathlib

/-!
A shallow embedding in Lean 4 of the core of `main.py` from the ytscribe
repository: the filename sanitizer, the video-id extractor, the two
metadata-lookup wrappers, the per-video transcript/video download steps,
and the batch orchestrator, together with theorems checking the
natural-language specification of the program against this embedding.

Python strings are modelled as `List Char` (sequences of code points);
exceptions thrown by external collaborators are modelled as `Except Unit`
values supplied as oracles; the external yt-dlp / transcript providers are
abstracted as oracle functions.
-/

set_option autoImplicit false

namespace Ytscribe

/-! ### Filename sanitizer (`sanitize_filename`, main.py lines 18-27) -/

/-- The character class of the regex `[<>:"/\\|?*]` used in `re.sub`. -/
def isInvalidChar (c : Char) : Bool :=
  c = '<' || c = '>' || c = ':' || c = '\"' || c = '/' || c = '\\' ||
  c = '|' || c = '?' || c = '*'

/-- `re.sub(r'[<>:"/\\|?*]', '_', filename)`: replace each invalid character
by an underscore. -/
def replaceInvalid (l : List Char) : List Char :=
  l.map (fun c => if isInvalidChar c then '_' else c)

/-- The character set of Python's `str.strip('. ')`: a dot or a space. -/
def isStripChar (c : Char) : Bool :=
  c = '.' || c = ' '

/-- Drop the longest suffix of characters satisfying `p` (the right half of
Python's `str.strip`). -/
def rstrip (p : Char → Bool) : List Char → List Char
  | [] => []
  | c :: rest =>
    match rstrip p rest with
    | [] => if p c then [] else [c]
    | r => c :: r

/-- Python's `s.strip('. ')`: drop leading and trailing `.`/space characters. -/
def pyStrip (p : Char → Bool) (l : List Char) : List Char :=
  rstrip p (l.dropWhile p)

/-- The final `return sanitized[:200] if len(sanitized) > 200 else sanitized`. -/
def truncate200 (l : List Char) : List Char :=
  if l.length > 200 then l.take 200 else l

/-- `sanitize_filename` from main.py: replace invalid characters with `_`,
strip leading/trailing dots and spaces, fall back to `"untitled"` when the
result is empty, and finally truncate to 200 characters. -/
def sanitize_filename (l : List Char) : List Char :=
  truncate200
    (if pyStrip isStripChar (replaceInvalid l) = [] then "untitled".toList
     else pyStrip isStripChar (replaceInvalid l))

/-! ### Video-id extractor (`extract_video_id`, main.py lines 29-43) -/

/-- The regex character class `[0-9A-Za-z_-]` (ASCII semantics, as in
Python's `re` on these classes). -/
def isIdChar (c : Char) : Bool :=
  c.isDigit || c.isUpper || c.isLower || c = '_' || c = '-'

/-- The quantified group `([0-9A-Za-z_-]{11})`: succeed with the first 11
characters of `l` when they exist and all lie in the id alphabet. -/
def grab11 (l : List Char) : Option (List Char) :=
  if (l.take 11).length = 11 && (l.take 11).all isIdChar then some (l.take 11)
  else none

/-- One attempt of the first pattern at a fixed position: the alternation
`(?:v=|\/)` (with `v=` tried first, as in the regex) followed by the
11-character group. -/
def atPos1 (c : Char) (rest : List Char) : Option (List Char) :=
  if ['v', '='].isPrefixOf (c :: rest) then grab11 (rest.drop 1)
  else if c = '/' then grab11 rest
  else none

/-- `re.search(r'(?:v=|\/)([0-9A-Za-z_-]{11}).*', url)`: scan left to right
for a position where `v=` (tried first) or `/` is followed by 11 id
characters; the trailing `.*` always matches and is irrelevant to success.
Returns the captured group of the leftmost match. -/
def searchP1 : List Char → Option (List Char)
  | [] => none
  | c :: rest =>
    match atPos1 c rest with
    | some g => some g
    | none => searchP1 rest

/-- One attempt of a `(?:tag)([0-9A-Za-z_-]{11})` pattern at a fixed
position: the literal `tag` followed by the 11-character group. -/
def atTag (tag : List Char) (c : Char) (rest : List Char) : Option (List Char) :=
  if tag.isPrefixOf (c :: rest) then grab11 ((c :: rest).drop tag.length)
  else none

/-- `re.search` for a pattern of the form `(?:tag)([0-9A-Za-z_-]{11})` with a
literal `tag`: scan left to right for a position where `tag` is followed by
11 id characters and return the captured group of the leftmost match. -/
def searchTag (tag : List Char) : List Char → Option (List Char)
  | [] => none
  | c :: rest =>
    match atTag tag c rest with
    | some g => some g
    | none => searchTag tag rest

/-- The second pattern, `(?:embed\/)([0-9A-Za-z_-]{11})`. -/
def searchP2 (url : List Char) : Option (List Char) :=
  searchTag "embed/".toList url

/-- The third pattern, `(?:v\/)([0-9A-Za-z_-]{11})`. -/
def searchP3 (url : List Char) : Option (List Char) :=
  searchTag "v/".toList url

/-- An exact 11-id-character string, used by the anchored fourth pattern. -/
def exact11 (l : List Char) : Option (List Char) :=
  if l.length = 11 && l.all isIdChar then some l else none

/-- The fourth pattern, `re.search(r'^([0-9A-Za-z_-]{11})$', url)`. Python's
`$` also matches just before a single trailing newline, so the pattern
accepts `id` and `id ++ "\n"`. -/
def matchP4 (url : List Char) : Option (List Char) :=
  match exact11 url with
  | some g => some g
  | none =>
    if url.getLast? = some '\n' then exact11 url.dropLast else none

/-- `extract_video_id` from main.py: try the four patterns in order and
return the captured group of the first that matches; `none` models raising
`ValueError` ("Could not extract video ID"). -/
def extract_video_id (url : List Char) : Option (List Char) :=
  match searchP1 url with
  | some g => some g
  | none =>
    match searchP2 url with
    | some g => some g
    | none =>
      match searchP3 url with
      | some g => some g
      | none => matchP4 url

example : extract_video_id "https://www.youtube.com/watch?v=dQw4w9WgXcQ".toList
    = some "dQw4w9WgXcQ".toList := by decide
example : extract_video_id "dQw4w9WgXcQ".toList = some "dQw4w9WgXcQ".toList := by decide
example : extract_video_id "hello".toList = none := by decide
example : sanitize_filename "...".toList = "untitled".toList := by decide
example : sanitize_filename "a<b>c".toList = "a_b_c".toList := by decide

/-! ### Metadata lookups (`get_video_info` / `get_playlist_info`,
main.py lines 45-87)

`ydl.extract_info` is modelled as an oracle value of type
`Except Unit (Option _)`: `.error` is a raised exception, `.ok none` is a
`None` result, and `.ok (some _)` is an info dict. An absent dict key is
modelled as `none` in the corresponding field. -/

/-- The `{title, id}` record returned by `get_video_info`. -/
structure VideoInfo where
  title : List Char
  id : List Char
  deriving DecidableEq, Repr

/-- The placeholder title `f'video_{video_id}'`. -/
def placeholderTitle (video_id : List Char) : List Char :=
  "video_".toList ++ video_id

/-- `get_video_info` from main.py, with the provider call abstracted as the
oracle `fetch`: an exception, a `None` info, or a missing `title` key all
yield the placeholder record; otherwise the provider title is used. -/
def get_video_info (fetch : Except Unit (Option (Option (List Char))))
    (video_id : List Char) : VideoInfo :=
  match fetch with
  | .error _ => ⟨placeholderTitle video_id, video_id⟩
  | .ok none => ⟨placeholderTitle video_id, video_id⟩
  | .ok (some titleField) => ⟨titleField.getD (placeholderTitle video_id), video_id⟩

/-- The `{title, entries}` record returned by `get_playlist_info`. -/
structure PlaylistInfo where
  title : List Char
  entries : List (List Char)
  deriving DecidableEq, Repr

/-- A raw playlist info dict as returned by the provider: an optional
`title` key and an optional `entries` key whose elements are either falsy
(`none`), dicts without an `id` key (`some none`), or dicts carrying an id
(`some (some id)`). -/
structure RawPlaylist where
  title : Option (List Char)
  entries : Option (List (Option (Option (List Char))))
  deriving DecidableEq, Repr

/-- The per-entry filter of the list comprehension
`[entry['id'] for entry in info.get('entries', []) if entry and 'id' in entry]`. -/
def entryId : Option (Option (List Char)) → Option (List Char)
  | some (some i) => some i
  | _ => none

/-- The default playlist title `'Unknown Playlist'`. -/
def unknownPlaylist : List Char :=
  "Unknown Playlist".toList

/-- `get_playlist_info` from main.py, with the provider call abstracted as
the oracle `fetch`: exceptions and `None` infos yield the default record;
otherwise the entries carrying an id are kept in provider order. -/
def get_playlist_info (fetch : Except Unit (Option RawPlaylist)) : PlaylistInfo :=
  match fetch with
  | .error _ => ⟨unknownPlaylist, []⟩
  | .ok none => ⟨unknownPlaylist, []⟩
  | .ok (some raw) =>
    ⟨raw.title.getD unknownPlaylist, (raw.entries.getD []).filterMap entryId⟩

/-! ### Per-video download steps (`download_transcript` / `download_video`,
main.py lines 89-154)

Each function's body is wrapped in a catch-all `try/except` returning
`False`; the fallible steps of the body are supplied as `Except Unit`
oracles. `get_video_info` and `sanitize_filename` are total and cannot
contribute a failure, so they are not parameters here. -/

/-- The connection actually used by `download_transcript`: the proxied one
exactly when both credentials are supplied (`hasCreds`) and the
`WebshareProxyConfig` construction did not raise; a proxy-setup error is
caught by the inner handler and falls back to the direct connection. -/
def proxyConnection (hasCreds : Bool) (proxySetup : Except Unit Unit) : Bool :=
  hasCreds &&
    (match proxySetup with
     | .ok _ => true
     | .error _ => false)

/-- `download_transcript` from main.py: fetch the transcript over the
chosen connection, format it, write the file; any exception among these
steps is caught by the outer handler and yields `false`, success yields
`true`. `fetch` takes the connection kind (`true` = proxied). -/
def download_transcript (hasCreds : Bool) (proxySetup : Except Unit Unit)
    (fetch : Bool → Except Unit (List Char))
    (fmtStep : List Char → Except Unit (List Char))
    (writeStep : List Char → Except Unit Unit) : Bool :=
  match fetch (proxyConnection hasCreds proxySetup) with
  | .error _ => false
  | .ok transcript =>
    match fmtStep transcript with
    | .error _ => false
    | .ok text =>
      match writeStep text with
      | .error _ => false
      | .ok _ => true

/-- `download_video` from main.py: run the yt-dlp download (the fallible
body, abstracted as `dl`); any exception is caught and yields `false`. -/
def download_video (dl : Except Unit Unit) : Bool :=
  match dl with
  | .ok _ => true
  | .error _ => false

/-! ### Batch orchestrator (`download`, main.py lines 156-263) -/

/-- The external collaborators as seen by the orchestrator loop:
`playlistInfo` is the (total, see `get_playlist_info`) playlist lookup,
`transcriptOk` the boolean outcome of `download_transcript` for a video id,
`videoOk` the boolean outcome of `download_video` for a video id. -/
structure Oracle where
  playlistInfo : List Char → PlaylistInfo
  transcriptOk : List Char → Bool
  videoOk : List Char → Bool

/-- The orchestrator's observable state: the two tally counters
`total_success` / `total_failed`, the ordered list of video ids for which a
transcript attempt was made, and the log of video-download attempts with
their outcomes (the code only prints these outcomes). -/
structure RunState where
  succeeded : Nat
  failed : Nat
  attempts : List (List Char)
  videoLog : List (List Char × Bool)
  deriving DecidableEq, Repr

/-- The state at the start of the loop: both counters zero, nothing
attempted. -/
def initState : RunState :=
  ⟨0, 0, [], []⟩

/-- One transcript attempt for video id `vid`: the `if download_transcript(...)`
branch incrementing exactly one of the two counters. -/
def attemptTranscript (o : Oracle) (vid : List Char) (st : RunState) : RunState :=
  if o.transcriptOk vid then
    { st with succeeded := st.succeeded + 1, attempts := st.attempts ++ [vid] }
  else
    { st with failed := st.failed + 1, attempts := st.attempts ++ [vid] }

/-- The `if download_video_flag:` block: when the flag is set, run the video
download and record its outcome (the code prints a note on failure but
touches no counter). -/
def attemptVideo (o : Oracle) (flag : Bool) (vid : List Char) (st : RunState) : RunState :=
  if flag then { st with videoLog := st.videoLog ++ [(vid, o.videoOk vid)] } else st

/-- The `for video_id in playlist_info['entries']:` loop body, iterated. -/
def processEntries (o : Oracle) (flag : Bool) : List (List Char) → RunState → RunState
  | [], st => st
  | vid :: rest, st =>
    processEntries o flag rest (attemptVideo o flag vid (attemptTranscript o vid st))

/-- The playlist classification `'playlist' in url or 'list=' in url`. -/
def isPlaylistUrl (url : List Char) : Bool :=
  decide ("playlist".toList <:+: url) || decide ("list=".toList <:+: url)

/-- The body of `for url in urls:` with its item-level `try/except`: the
playlist path iterates the entries; the single-video path extracts the id
and processes one video; an extraction failure (`ValueError`) is caught by
the handler, which increments `total_failed` by one. -/
def processUrl (o : Oracle) (flag : Bool) (url : List Char) (st : RunState) : RunState :=
  if isPlaylistUrl url then
    processEntries o flag (o.playlistInfo url).entries st
  else
    match extract_video_id url with
    | none => { st with failed := st.failed + 1 }
    | some vid => attemptVideo o flag vid (attemptTranscript o vid st)

/-- The whole `for url in urls:` loop. -/
def runBatch (o : Oracle) (flag : Bool) : List (List Char) → RunState → RunState
  | [], st => st
  | url :: rest, st => runBatch o flag rest (processUrl o flag url st)

/-- The `download` command from main.py, up to its observable outcome: the
username/password pairing check runs first and exits with status 1 before
any processing; otherwise the batch loop runs to completion and the process
exits with status 0. Returns (exit status, final state). -/
def download (o : Oracle) (flag : Bool) (username password : Option (List Char))
    (urls : List (List Char)) : Nat × RunState :=
  if username.isNone != password.isNone then
    (1, initState)
  else
    (0, runBatch o flag urls initState)

/-! ### Property vocabulary for the sanitizer claims -/

/-- No character of `l` lies in the invalid class `<>:"/\|?*`. -/
def noInvalidChars (l : List Char) : Bool :=
  l.all (fun c => !isInvalidChar c)

/-- Neither the first nor the last character of `l` is a dot or a space. -/
def cleanEdges (l : List Char) : Bool :=
  l.head?.all (fun c => !isStripChar c) && l.getLast?.all (fun c => !isStripChar c)

/-! ### Sanitizer lemmas -/

theorem rstrip_sublist (p : Char → Bool) : ∀ l : List Char, List.Sublist (rstrip p l) l := by
  intro l
  induction l with
  | nil => simp [rstrip]
  | cons c rest ih =>
    rw [rstrip]
    cases h : rstrip p rest with
    | nil =>
      by_cases hp : p c <;> simp [hp]
    | cons a as =>
      rw [h] at ih
      exact ih.cons₂ c

theorem pyStrip_sublist (p : Char → Bool) (l : List Char) : List.Sublist (pyStrip p l) l :=
  (rstrip_sublist p (l.dropWhile p)).trans (List.dropWhile_sublist p)

theorem sublist_all {q : Char → Bool} {l₁ l₂ : List Char} (h : List.Sublist l₁ l₂)
    (hall : l₂.all q = true) : l₁.all q = true := by
  rw [List.all_eq_true] at hall ⊢
  exact fun x hx => hall x (h.subset hx)

theorem replaceInvalid_clean (l : List Char) :
    (replaceInvalid l).all (fun c => !isInvalidChar c) = true := by
  rw [List.all_eq_true]
  intro x hx
  rw [replaceInvalid, List.mem_map] at hx
  obtain ⟨c, _hc, rfl⟩ := hx
  by_cases h : isInvalidChar c
  · simp only [if_pos h]
    decide
  · simp only [if_neg h]
    simp [h]

theorem dropWhile_head_false (p : Char → Bool) :
    ∀ (l : List Char) (c : Char), (l.dropWhile p).head? = some c → p c = false := by
  intro l
  induction l with
  | nil =>
    intro c h
    simp [List.dropWhile] at h
  | cons a rest ih =>
    intro c h
    rw [List.dropWhile_cons] at h
    by_cases hp : p a
    · rw [if_pos hp] at h
      exact ih c h
    · rw [if_neg hp] at h
      simp only [List.head?_cons, Option.some.injEq] at h
      subst h
      simpa using hp

theorem rstrip_head (p : Char → Bool) :
    ∀ (l : List Char) (c : Char), (rstrip p l).head? = some c → l.head? = some c := by
  intro l
  cases l with
  | nil =>
    intro c h
    simp [rstrip] at h
  | cons a rest =>
    intro c h
    rw [rstrip] at h
    cases h2 : rstrip p rest with
    | nil =>
      rw [h2] at h
      by_cases hp : p a
      · simp [hp] at h
      · simp only [if_neg hp, List.head?_cons, Option.some.injEq] at h
        rw [h]
        rfl
    | cons b bs =>
      rw [h2] at h
      simp only [List.head?_cons, Option.some.injEq] at h
      rw [h]
      rfl

theorem rstrip_getLast (p : Char → Bool) :
    ∀ (l : List Char) (c : Char), (rstrip p l).getLast? = some c → p c = false := by
  intro l
  induction l with
  | nil =>
    intro c h
    simp [rstrip] at h
  | cons a rest ih =>
    intro c h
    rw [rstrip] at h
    cases h2 : rstrip p rest with
    | nil =>
      rw [h2] at h
      by_cases hp : p a
      · simp [hp] at h
      · simp only [if_neg hp, List.getLast?_singleton, Option.some.injEq] at h
        subst h
        simpa using hp
    | cons b bs =>
      rw [h2, List.getLast?_cons_cons, ← h2] at h
      exact ih c h

theorem truncate200_length (l : List Char) : (truncate200 l).length ≤ 200 := by
  rw [truncate200]
  by_cases h : l.length > 200
  · rw [if_pos h, List.length_take]
    omega
  · rw [if_neg h]
    omega

theorem truncate200_head (l : List Char) : (truncate200 l).head? = l.head? := by
  rw [truncate200]
  by_cases h : l.length > 200
  · rw [if_pos h]
    cases l with
    | nil => rfl
    | cons c rest => rfl
  · rw [if_neg h]

theorem truncate200_sublist (l : List Char) : List.Sublist (truncate200 l) l := by
  rw [truncate200]
  by_cases h : l.length > 200
  · rw [if_pos h]
    exact List.take_sublist 200 l
  · rw [if_neg h]

theorem truncate200_of_le {l : List Char} (h : l.length ≤ 200) : truncate200 l = l := by
  rw [truncate200, if_neg (by omega)]

theorem pyStrip_head_clean (p : Char → Bool) (l : List Char) :
    (pyStrip p l).head?.all (fun c => !p c) = true := by
  cases hh : (pyStrip p l).head? with
  | none => rfl
  | some c =>
    rw [pyStrip] at hh
    have h1 := rstrip_head p (l.dropWhile p) c hh
    have h2 := dropWhile_head_false p l c h1
    simp [Option.all, h2]

theorem pyStrip_getLast_clean (p : Char → Bool) (l : List Char) :
    (pyStrip p l).getLast?.all (fun c => !p c) = true := by
  cases hh : (pyStrip p l).getLast? with
  | none => rfl
  | some c =>
    rw [pyStrip] at hh
    have h2 := rstrip_getLast p (l.dropWhile p) c hh
    simp [Option.all, h2]

/-! ### Claim C2 (corrected) and claim C9 -/

set_option maxRecDepth 8000 in
/-- C2 counterexample: on the 201-character input `'a' * 199 ++ ".b"`, the
stripped intermediate is 201 characters long, so the final `[:200]`
truncation cuts after the dot and the result ends in `'.'` — refuting the
claim that the output never has a trailing `'.'` or space. -/
theorem sanitize_filename_trailing_counterexample :
    ¬ ((sanitize_filename (List.replicate 199 'a' ++ ['.', 'b'])).length ≤ 200 ∧
       noInvalidChars (sanitize_filename (List.replicate 199 'a' ++ ['.', 'b'])) = true ∧
       cleanEdges (sanitize_filename (List.replicate 199 'a' ++ ['.', 'b'])) = true) := by
  decide

/-- C2 (amended): for every input, `sanitize_filename` returns at most 200
characters, none of them among `<>:"/\|?*`, and the first character is
never a dot or a space; the last character is also never a dot or a space
provided the stripped intermediate fits in 200 characters (when it does
not, the final truncation can expose a trailing dot or space). -/
theorem sanitize_filename_props (l : List Char) :
    (sanitize_filename l).length ≤ 200 ∧
    noInvalidChars (sanitize_filename l) = true ∧
    (sanitize_filename l).head?.all (fun c => !isStripChar c) = true ∧
    ((pyStrip isStripChar (replaceInvalid l)).length ≤ 200 →
      cleanEdges (sanitize_filename l) = true) := by
  refine ⟨truncate200_length _, ?_, ?_, ?_⟩
  · rw [sanitize_filename, noInvalidChars]
    apply sublist_all (truncate200_sublist _)
    by_cases he : pyStrip isStripChar (replaceInvalid l) = []
    · rw [if_pos he]
      decide
    · rw [if_neg he]
      exact sublist_all (pyStrip_sublist isStripChar (replaceInvalid l))
        (replaceInvalid_clean l)
  · rw [sanitize_filename, truncate200_head]
    by_cases he : pyStrip isStripChar (replaceInvalid l) = []
    · rw [if_pos he]
      decide
    · rw [if_neg he]
      exact pyStrip_head_clean isStripChar (replaceInvalid l)
  · intro hlen
    rw [sanitize_filename]
    by_cases he : pyStrip isStripChar (replaceInvalid l) = []
    · rw [if_pos he, truncate200_of_le (by decide)]
      decide
    · rw [if_neg he, truncate200_of_le hlen, cleanEdges,
        pyStrip_head_clean isStripChar (replaceInvalid l),
        pyStrip_getLast_clean isStripChar (replaceInvalid l)]
      rfl

/-- Witness for `sanitize_filename_props` at the concrete input `" a.b "`,
whose stripped intermediate fits in 200 characters. -/
theorem sanitize_filename_props_witness :
    cleanEdges (sanitize_filename " a.b ".toList) = true :=
  (sanitize_filename_props " a.b ".toList).2.2.2 (by decide)

/-- C9: `sanitize_filename` maps the empty string and `"..."` to the
literal `"untitled"`, and more generally any input whose replaced-and-
stripped form is empty; the result is then non-empty. Totality (no error
outcome) is inherent: `sanitize_filename` is a total Lean function. -/
theorem sanitize_empty_fallback :
    sanitize_filename [] = "untitled".toList ∧
    sanitize_filename "...".toList = "untitled".toList ∧
    ∀ l : List Char, pyStrip isStripChar (replaceInvalid l) = [] →
      sanitize_filename l = "untitled".toList ∧ sanitize_filename l ≠ [] := by
  refine ⟨by decide, by decide, ?_⟩
  intro l h
  have heq : sanitize_filename l = truncate200 "untitled".toList := by
    rw [sanitize_filename, if_pos h]
  rw [truncate200_of_le (by decide)] at heq
  refine ⟨heq, ?_⟩
  rw [heq]
  decide

/-- Witness for `sanitize_empty_fallback` at the concrete input `" . . "`,
which strips down to the empty string. -/
theorem sanitize_empty_fallback_witness :
    sanitize_filename " . . ".toList = "untitled".toList ∧
    sanitize_filename " . . ".toList ≠ [] :=
  sanitize_empty_fallback.2.2 " . . ".toList (by decide)

/-! ### Extractor lemmas -/

theorem grab11_some {l g : List Char} (h : grab11 l = some g) : g.length = 11 := by
  rw [grab11] at h
  by_cases hc : ((l.take 11).length = 11 && (l.take 11).all isIdChar) = true
  · rw [if_pos hc] at h
    simp only [Bool.and_eq_true, decide_eq_true_eq] at hc
    cases h
    exact hc.1
  · rw [if_neg hc] at h
    exact Option.noConfusion h

theorem atPos1_some {c : Char} {rest g : List Char} (h : atPos1 c rest = some g) :
    g.length = 11 := by
  rw [atPos1] at h
  by_cases hA : ['v', '='].isPrefixOf (c :: rest) = true
  · rw [if_pos hA] at h
    exact grab11_some h
  · rw [if_neg hA] at h
    by_cases hB : c = '/'
    · rw [if_pos hB] at h
      exact grab11_some h
    · rw [if_neg hB] at h
      exact Option.noConfusion h

theorem atTag_some {tag : List Char} {c : Char} {rest g : List Char}
    (h : atTag tag c rest = some g) : g.length = 11 := by
  rw [atTag] at h
  by_cases hA : tag.isPrefixOf (c :: rest) = true
  · rw [if_pos hA] at h
    exact grab11_some h
  · rw [if_neg hA] at h
    exact Option.noConfusion h

theorem searchP1_length : ∀ l g : List Char, searchP1 l = some g → g.length = 11 := by
  intro l
  induction l with
  | nil =>
    intro g h
    simp [searchP1] at h
  | cons c rest ih =>
    intro g h
    rw [searchP1] at h
    cases hi : atPos1 c rest with
    | some g2 =>
      rw [hi] at h
      cases h
      exact atPos1_some hi
    | none =>
      rw [hi] at h
      exact ih g h

theorem searchTag_length (tag : List Char) :
    ∀ l g : List Char, searchTag tag l = some g → g.length = 11 := by
  intro l
  induction l with
  | nil =>
    intro g h
    simp [searchTag] at h
  | cons c rest ih =>
    intro g h
    rw [searchTag] at h
    cases hi : atTag tag c rest with
    | some g2 =>
      rw [hi] at h
      cases h
      exact atTag_some hi
    | none =>
      rw [hi] at h
      exact ih g h

theorem exact11_some {l g : List Char} (h : exact11 l = some g) : g.length = 11 := by
  rw [exact11] at h
  by_cases hc : (l.length = 11 && l.all isIdChar) = true
  · rw [if_pos hc] at h
    simp only [Bool.and_eq_true, decide_eq_true_eq] at hc
    cases h
    exact hc.1
  · rw [if_neg hc] at h
    exact Option.noConfusion h

theorem matchP4_length {url g : List Char} (h : matchP4 url = some g) : g.length = 11 := by
  rw [matchP4] at h
  cases he : exact11 url with
  | some g2 =>
    rw [he] at h
    cases h
    exact exact11_some he
  | none =>
    rw [he] at h
    by_cases hn : url.getLast? = some '\n'
    · rw [if_pos hn] at h
      exact exact11_some h
    · rw [if_neg hn] at h
      exact Option.noConfusion h

/-! ### Claim C1 -/

/-- C1: `extract_video_id` returns the captured group of the first of the
four patterns that matches (tried in the fixed source order: query-param or
path form, embed form, short-v form, anchored bare form), that group always
has exactly 11 characters, and the function fails (models raising
`ValueError`) exactly when none of the four patterns matches. -/
theorem extract_video_id_spec (url : List Char) :
    (∀ g, searchP1 url = some g → extract_video_id url = some g) ∧
    (∀ g, extract_video_id url = some g →
      searchP1 url = some g ∨
      (searchP1 url = none ∧ searchP2 url = some g) ∨
      (searchP1 url = none ∧ searchP2 url = none ∧ searchP3 url = some g) ∨
      (searchP1 url = none ∧ searchP2 url = none ∧ searchP3 url = none ∧
        matchP4 url = some g)) ∧
    (extract_video_id url = none ↔
      searchP1 url = none ∧ searchP2 url = none ∧ searchP3 url = none ∧
      matchP4 url = none) ∧
    (∀ g, extract_video_id url = some g → g.length = 11) := by
  have hpriority : ∀ g, extract_video_id url = some g →
      searchP1 url = some g ∨
      (searchP1 url = none ∧ searchP2 url = some g) ∨
      (searchP1 url = none ∧ searchP2 url = none ∧ searchP3 url = some g) ∨
      (searchP1 url = none ∧ searchP2 url = none ∧ searchP3 url = none ∧
        matchP4 url = some g) := by
    intro g h
    rw [extract_video_id] at h
    cases h1 : searchP1 url with
    | some g1 =>
      rw [h1] at h
      cases h
      exact Or.inl rfl
    | none =>
      rw [h1] at h
      cases h2 : searchP2 url with
      | some g2 =>
        rw [h2] at h
        cases h
        exact Or.inr (Or.inl ⟨rfl, rfl⟩)
      | none =>
        rw [h2] at h
        cases h3 : searchP3 url with
        | some g3 =>
          rw [h3] at h
          cases h
          exact Or.inr (Or.inr (Or.inl ⟨rfl, rfl, rfl⟩))
        | none =>
          rw [h3] at h
          exact Or.inr (Or.inr (Or.inr ⟨rfl, rfl, rfl, h⟩))
  refine ⟨?_, hpriority, ⟨?_, ?_⟩, ?_⟩
  · intro g h
    rw [extract_video_id, h]
  · intro h
    rw [extract_video_id] at h
    cases h1 : searchP1 url with
    | some g1 =>
      rw [h1] at h
      exact Option.noConfusion h
    | none =>
      rw [h1] at h
      cases h2 : searchP2 url with
      | some g2 =>
        rw [h2] at h
        exact Option.noConfusion h
      | none =>
        rw [h2] at h
        cases h3 : searchP3 url with
        | some g3 =>
          rw [h3] at h
          exact Option.noConfusion h
        | none =>
          rw [h3] at h
          exact ⟨rfl, rfl, rfl, h⟩
  · rintro ⟨h1, h2, h3, h4⟩
    rw [extract_video_id, h1, h2, h3]
    exact h4
  · intro g h
    rcases hpriority g h with h' | ⟨_, h'⟩ | ⟨_, _, h'⟩ | ⟨_, _, _, h'⟩
    · exact searchP1_length url g h'
    · exact searchTag_length "embed/".toList url g h'
    · exact searchTag_length "v/".toList url g h'
    · exact matchP4_length h'

/-- Witness for `extract_video_id_spec`: on the canonical watch URL the
first pattern matches with group `dQw4w9WgXcQ`, so extraction returns it. -/
theorem extract_video_id_spec_witness :
    extract_video_id "https://www.youtube.com/watch?v=dQw4w9WgXcQ".toList
      = some "dQw4w9WgXcQ".toList :=
  (extract_video_id_spec "https://www.youtube.com/watch?v=dQw4w9WgXcQ".toList).1
    "dQw4w9WgXcQ".toList (by decide)

/-! ### Claims C7 and C8 -/

/-- C7: `get_video_info` never propagates a provider failure (it is a total
function into `VideoInfo`), and on a raised lookup exception, a `None`
info, or a missing title it returns the placeholder record
`{title: "video_" + id, id}`. -/
theorem get_video_info_spec :
    (∀ (e : Unit) (vid : List Char),
      get_video_info (Except.error e) vid = ⟨placeholderTitle vid, vid⟩) ∧
    (∀ vid : List Char,
      get_video_info (Except.ok none) vid = ⟨placeholderTitle vid, vid⟩) ∧
    (∀ vid : List Char,
      get_video_info (Except.ok (some none)) vid = ⟨placeholderTitle vid, vid⟩) :=
  ⟨fun _ _ => rfl, fun _ => rfl, fun _ => rfl⟩

theorem filterMap_entryId_eq (es : List (Option (Option (List Char)))) :
    es.filterMap entryId =
      (es.filter (fun e => (entryId e).isSome)).map (fun e => (entryId e).getD []) := by
  induction es with
  | nil => rfl
  | cons e rest ih =>
    cases e with
    | none =>
      simpa [List.filterMap_cons, List.filter_cons, entryId] using ih
    | some o =>
      cases o with
      | none =>
        simpa [List.filterMap_cons, List.filter_cons, entryId] using ih
      | some i =>
        simp [List.filterMap_cons, List.filter_cons, entryId, ih]

/-- C8: `get_playlist_info` returns `{title: "Unknown Playlist", entries: []}`
on a raised provider exception or a `None` info instead of propagating, and
on success its entries are exactly the provider entries that carry an id,
in provider order (expressed extensionally as the image of the well-formed
entries under id projection), with malformed entries dropped. -/
theorem get_playlist_info_spec :
    (∀ e : Unit, get_playlist_info (Except.error e) = ⟨unknownPlaylist, []⟩) ∧
    get_playlist_info (Except.ok none) = ⟨unknownPlaylist, []⟩ ∧
    ∀ raw : RawPlaylist,
      (get_playlist_info (Except.ok (some raw))).entries =
        ((raw.entries.getD []).filter (fun e => (entryId e).isSome)).map
          (fun e => (entryId e).getD []) := by
  refine ⟨fun _ => rfl, rfl, ?_⟩
  intro raw
  exact filterMap_entryId_eq (raw.entries.getD [])

/-! ### Orchestrator lemmas -/

/-- The tally-relevant part of two states agrees: both counters and the
ordered list of transcript attempts. -/
def TallyEq (s t : RunState) : Prop :=
  s.succeeded = t.succeeded ∧ s.failed = t.failed ∧ s.attempts = t.attempts

theorem attemptVideo_tally (o : Oracle) (flag : Bool) (vid : List Char) (st : RunState) :
    (attemptVideo o flag vid st).succeeded = st.succeeded ∧
    (attemptVideo o flag vid st).failed = st.failed ∧
    (attemptVideo o flag vid st).attempts = st.attempts := by
  rw [attemptVideo]
  by_cases h : flag = true
  · rw [if_pos h]
    exact ⟨rfl, rfl, rfl⟩
  · rw [if_neg h]
    exact ⟨rfl, rfl, rfl⟩

theorem attemptTranscript_stats (o : Oracle) (vid : List Char) (st : RunState) :
    (attemptTranscript o vid st).attempts = st.attempts ++ [vid] ∧
    (attemptTranscript o vid st).succeeded + (attemptTranscript o vid st).failed
      = st.succeeded + st.failed + 1 := by
  rw [attemptTranscript]
  by_cases h : o.transcriptOk vid = true
  · rw [if_pos h]
    refine ⟨rfl, ?_⟩
    show st.succeeded + 1 + st.failed = st.succeeded + st.failed + 1
    omega
  · rw [if_neg h]
    refine ⟨rfl, ?_⟩
    show st.succeeded + (st.failed + 1) = st.succeeded + st.failed + 1
    omega

theorem processEntries_stats (o : Oracle) (flag : Bool) :
    ∀ (es : List (List Char)) (st : RunState),
      (processEntries o flag es st).attempts = st.attempts ++ es ∧
      (processEntries o flag es st).succeeded + (processEntries o flag es st).failed
        = st.succeeded + st.failed + es.length := by
  intro es
  induction es with
  | nil =>
    intro st
    simp [processEntries]
  | cons v rest ih =>
    intro st
    rw [processEntries]
    obtain ⟨ha, hn⟩ := ih (attemptVideo o flag v (attemptTranscript o v st))
    obtain ⟨hv1, hv2, hv3⟩ := attemptVideo_tally o flag v (attemptTranscript o v st)
    obtain ⟨ht1, ht2⟩ := attemptTranscript_stats o v st
    constructor
    · rw [ha, hv3, ht1, List.append_assoc]
      rfl
    · rw [hn, hv1, hv2, List.length_cons]
      omega

theorem runBatch_append (o : Oracle) (flag : Bool) :
    ∀ (l1 l2 : List (List Char)) (st : RunState),
      runBatch o flag (l1 ++ l2) st = runBatch o flag l2 (runBatch o flag l1 st) := by
  intro l1
  induction l1 with
  | nil =>
    intro l2 st
    rfl
  | cons u rest ih =>
    intro l2 st
    rw [List.cons_append, runBatch, runBatch]
    exact ih l2 (processUrl o flag u st)

/-! ### Claim C3 -/

/-- C3: on a playlist-classified input, the orchestrator makes exactly one
transcript attempt per entry returned by the playlist lookup, in the
provider-returned order, and the combined tally increment
(succeeded plus failed) equals the number of entries. -/
theorem playlist_attempts_spec (o : Oracle) (flag : Bool) (url : List Char) (st : RunState)
    (h : isPlaylistUrl url = true) :
    (processUrl o flag url st).attempts = st.attempts ++ (o.playlistInfo url).entries ∧
    (processUrl o flag url st).succeeded + (processUrl o flag url st).failed
      = st.succeeded + st.failed + (o.playlistInfo url).entries.length := by
  rw [processUrl, if_pos h]
  exact processEntries_stats o flag (o.playlistInfo url).entries st

/-- A concrete oracle for witnesses: a three-entry playlist, transcripts
succeeding exactly on the first entry, video downloads always failing. -/
def demoOracle : Oracle :=
  ⟨fun _ => ⟨"My List".toList,
      ["aaaaaaaaaaa".toList, "bbbbbbbbbbb".toList, "ccccccccccc".toList]⟩,
   fun v => v == "aaaaaaaaaaa".toList,
   fun _ => false⟩

/-- A concrete playlist URL for witnesses. -/
def demoPlaylistUrl : List Char :=
  "https://www.youtube.com/playlist?list=PL123".toList

/-- Witness for `playlist_attempts_spec` on a concrete playlist URL and the
three-entry `demoOracle`. -/
theorem playlist_attempts_spec_witness :
    (processUrl demoOracle true demoPlaylistUrl initState).attempts
        = initState.attempts ++ (demoOracle.playlistInfo demoPlaylistUrl).entries ∧
    (processUrl demoOracle true demoPlaylistUrl initState).succeeded
        + (processUrl demoOracle true demoPlaylistUrl initState).failed
      = initState.succeeded + initState.failed
        + (demoOracle.playlistInfo demoPlaylistUrl).entries.length :=
  playlist_attempts_spec demoOracle true demoPlaylistUrl initState (by decide)

/-! ### Claim C4 -/

/-- C4: an error while processing one input item (in this embedding, the
extraction failure of a non-playlist item — the only raising step, since
the lookup and download steps are total) is caught at the item level: it
changes the state only by incrementing `failed` by exactly one, and the
batch continues with every remaining item, as the loop over
`pre ++ bad :: post` equals the loop over `post` started from the state
after `pre` with one extra failure. -/
theorem item_error_contained (o : Oracle) (flag : Bool) (pre post : List (List Char))
    (bad : List Char) (st : RunState)
    (h1 : isPlaylistUrl bad = false) (h2 : extract_video_id bad = none) :
    processUrl o flag bad st = { st with failed := st.failed + 1 } ∧
    runBatch o flag (pre ++ bad :: post) st =
      runBatch o flag post
        { runBatch o flag pre st with failed := (runBatch o flag pre st).failed + 1 } := by
  have hbad : ∀ s : RunState, processUrl o flag bad s = { s with failed := s.failed + 1 } := by
    intro s
    rw [processUrl, if_neg (by rw [h1]; exact Bool.false_ne_true), h2]
  refine ⟨hbad st, ?_⟩
  rw [runBatch_append o flag pre (bad :: post) st, runBatch, hbad]

/-- A concrete unparsable input for witnesses. -/
def badUrl : List Char :=
  "???".toList

/-- Witness for `item_error_contained`: the bad item `"???"` between two
good single-video items only adds one failure and the rest still runs. -/
theorem item_error_contained_witness :
    processUrl demoOracle true badUrl initState
        = { initState with failed := initState.failed + 1 } ∧
    runBatch demoOracle true (["dQw4w9WgXcQ".toList] ++ badUrl :: ["aaaaaaaaaaa".toList])
        initState =
      runBatch demoOracle true ["aaaaaaaaaaa".toList]
        { runBatch demoOracle true ["dQw4w9WgXcQ".toList] initState with
            failed := (runBatch demoOracle true ["dQw4w9WgXcQ".toList] initState).failed + 1 } :=
  item_error_contained demoOracle true ["dQw4w9WgXcQ".toList] ["aaaaaaaaaaa".toList]
    badUrl initState (by decide) (by decide)

/-! ### Claim C5 -/

theorem attemptTranscript_tallyEq {o1 o2 : Oracle}
    (htr : o1.transcriptOk = o2.transcriptOk) (vid : List Char) {s t : RunState}
    (h : TallyEq s t) : TallyEq (attemptTranscript o1 vid s) (attemptTranscript o2 vid t) := by
  obtain ⟨h1, h2, h3⟩ := h
  rw [attemptTranscript, attemptTranscript, htr]
  by_cases hb : o2.transcriptOk vid = true
  · rw [if_pos hb, if_pos hb]
    exact ⟨by simp [h1], by simp [h2], by simp [h3]⟩
  · rw [if_neg hb, if_neg hb]
    exact ⟨by simp [h1], by simp [h2], by simp [h3]⟩

theorem attemptVideo_tallyEq {o1 o2 : Oracle} (flag : Bool) (vid : List Char)
    {s t : RunState} (h : TallyEq s t) :
    TallyEq (attemptVideo o1 flag vid s) (attemptVideo o2 flag vid t) := by
  obtain ⟨h1, h2, h3⟩ := h
  rw [attemptVideo, attemptVideo]
  by_cases hb : flag = true
  · rw [if_pos hb, if_pos hb]
    exact ⟨h1, h2, h3⟩
  · rw [if_neg hb, if_neg hb]
    exact ⟨h1, h2, h3⟩

theorem processEntries_tallyEq {o1 o2 : Oracle}
    (htr : o1.transcriptOk = o2.transcriptOk) (flag : Bool) :
    ∀ (es : List (List Char)) {s t : RunState}, TallyEq s t →
      TallyEq (processEntries o1 flag es s) (processEntries o2 flag es t) := by
  intro es
  induction es with
  | nil =>
    intro s t h
    exact h
  | cons v rest ih =>
    intro s t h
    rw [processEntries, processEntries]
    exact ih (attemptVideo_tallyEq flag v (attemptTranscript_tallyEq htr v h))

theorem processUrl_tallyEq {o1 o2 : Oracle}
    (hpl : o1.playlistInfo = o2.playlistInfo)
    (htr : o1.transcriptOk = o2.transcriptOk) (flag : Bool) (url : List Char)
    {s t : RunState} (h : TallyEq s t) :
    TallyEq (processUrl o1 flag url s) (processUrl o2 flag url t) := by
  rw [processUrl, processUrl]
  by_cases hb : isPlaylistUrl url = true
  · rw [if_pos hb, if_pos hb, hpl]
    exact processEntries_tallyEq htr flag (o2.playlistInfo url).entries h
  · rw [if_neg hb, if_neg hb]
    cases he : extract_video_id url with
    | none =>
      exact ⟨h.1, by simp [h.2.1], h.2.2⟩
    | some vid =>
      exact attemptVideo_tallyEq flag vid (attemptTranscript_tallyEq htr vid h)

theorem runBatch_tallyEq {o1 o2 : Oracle}
    (hpl : o1.playlistInfo = o2.playlistInfo)
    (htr : o1.transcriptOk = o2.transcriptOk) (flag : Bool) :
    ∀ (urls : List (List Char)) {s t : RunState}, TallyEq s t →
      TallyEq (runBatch o1 flag urls s) (runBatch o2 flag urls t) := by
  intro urls
  induction urls with
  | nil =>
    intro s t h
    exact h
  | cons u rest ih =>
    intro s t h
    rw [runBatch, runBatch]
    exact ih (processUrl_tallyEq hpl htr flag u h)

/-- C5: the outcome of the video-download step never touches the tally:
runs differing only in the `download_video` outcomes produce identical
counters and identical transcript-attempt traces; and `download_video`
itself maps a failing body to the return value `false` instead of raising
(it is a total boolean function). -/
theorem video_outcome_no_tally (pl : List Char → PlaylistInfo) (tr v1 v2 : List Char → Bool)
    (flag : Bool) (urls : List (List Char)) (st : RunState) :
    TallyEq (runBatch ⟨pl, tr, v1⟩ flag urls st) (runBatch ⟨pl, tr, v2⟩ flag urls st) ∧
    download_video (Except.error ()) = false :=
  ⟨@runBatch_tallyEq ⟨pl, tr, v1⟩ ⟨pl, tr, v2⟩ rfl rfl flag urls st st ⟨rfl, rfl, rfl⟩, rfl⟩

/-! ### Claim C6 -/

/-- C6: the `download` command exits with status 1 exactly when one of
username/password is supplied without the other, and then without any item
processing (the final state is still `initState`); when the pairing check
passes, the run completes with exit status 0 whatever the per-item
outcomes are. -/
theorem startup_check_spec (o : Oracle) (flag : Bool)
    (username password : Option (List Char)) (urls : List (List Char)) :
    ((download o flag username password urls).1 = 1 ↔
      (username.isNone != password.isNone) = true) ∧
    ((username.isNone != password.isNone) = true →
      download o flag username password urls = (1, initState)) ∧
    ((username.isNone != password.isNone) = false →
      (download o flag username password urls).1 = 0 ∧
      (download o flag username password urls).2 = runBatch o flag urls initState) := by
  by_cases h : (username.isNone != password.isNone) = true
  · rw [download, if_pos h]
    refine ⟨⟨fun _ => h, fun _ => rfl⟩, fun _ => rfl, fun hf => ?_⟩
    rw [h] at hf
    exact Bool.noConfusion hf
  · rw [download, if_neg h]
    refine ⟨⟨fun h1 => by simp at h1, fun ht => absurd ht h⟩,
      fun ht => absurd ht h, fun _ => ⟨rfl, rfl⟩⟩

/-- Witness for `startup_check_spec`: `-username alice` without a password
exits with status 1 and an untouched (`initState`) state. -/
theorem startup_check_spec_witness :
    download demoOracle false (some "alice".toList) none ["dQw4w9WgXcQ".toList]
      = (1, initState) :=
  (startup_check_spec demoOracle false (some "alice".toList) none
    ["dQw4w9WgXcQ".toList]).2.1 (by decide)

/-! ### Claim C10 (corrected) -/

/-- C10 counterexample: with proxy credentials supplied, a proxy-setup
error is caught by the inner handler and only downgrades to the direct
connection; when fetch, formatting and write then succeed,
`download_transcript` returns `true` — refuting the claim that any error
at all inside the function (proxy setup included) yields `false`. -/
theorem download_transcript_proxy_counterexample :
    download_transcript true (Except.error ()) (fun _ => Except.ok "hi".toList)
      (fun t => Except.ok t) (fun _ => Except.ok ()) = true := rfl

/-- C10 (amended): `download_transcript` and `download_video` are total
boolean functions (never propagating an exception), `download_transcript`
returns `true` exactly when the transcript fetch over the connection it
actually uses, the formatting step, and the file write all succeed — so an
error in any of those steps yields `false`, while a proxy-setup error
alone only forces the direct connection — and `download_video` returns
`true` exactly when its download body succeeds. -/
theorem download_steps_total (hasCreds : Bool) (proxySetup : Except Unit Unit)
    (fetch : Bool → Except Unit (List Char))
    (fmtStep : List Char → Except Unit (List Char))
    (writeStep : List Char → Except Unit Unit) :
    (download_transcript hasCreds proxySetup fetch fmtStep writeStep = true ↔
      ∃ t text, fetch (proxyConnection hasCreds proxySetup) = Except.ok t ∧
        fmtStep t = Except.ok text ∧ writeStep text = Except.ok ()) ∧
    (∀ dl : Except Unit Unit, download_video dl = true ↔ dl = Except.ok ()) := by
  constructor
  · constructor
    · intro h
      rw [download_transcript] at h
      cases hf : fetch (proxyConnection hasCreds proxySetup) with
      | error e =>
        simp only [hf] at h
        exact Bool.noConfusion h
      | ok t =>
        simp only [hf] at h
        cases hm : fmtStep t with
        | error e =>
          simp only [hm] at h
          exact Bool.noConfusion h
        | ok text =>
          simp only [hm] at h
          cases hw : writeStep text with
          | error e =>
            simp only [hw] at h
            exact Bool.noConfusion h
          | ok u =>
            cases u
            exact ⟨t, text, rfl, hm, hw⟩
    · rintro ⟨t, text, hf, hm, hw⟩
      simp only [download_transcript, hf, hm, hw]
  · intro dl
    constructor
    · intro h
      cases dl with
      | error e =>
        rw [download_video] at h
        exact Bool.noConfusion h
      | ok u =>
        cases u
        rfl
    · intro h
      rw [h]
      rfl

/-- Witness for `download_steps_total`: a failing download body makes
`download_video` return `false`. -/
theorem download_steps_total_witness :
    download_video (Except.error ()) = false := by
  have h := (download_steps_total false (Except.ok ()) (fun _ => Except.ok [])
      (fun t => Except.ok t) (fun _ => Except.ok ())).2 (Except.error ())
  cases hb : download_video (Except.error ()) with
  | false => rfl
  | true => exact Except.noConfusion (h.mp hb)

end Ytscribe
